import Mathlib

/-!
Verification development for the NEP-141 factory contract (`src/src/lib.rs`).

The contract is a fungible-token ledger together with an asynchronous
"transfer then whitelist" orchestrator:
  * `Contract::new` / `new_default_meta` initialise the ledger, registering the
    owner and minting the whole supply to it;
  * `Contract::transfer` (owner-gated entry point) issues an outbound
    `ft_transfer` promise to `owner_id` and chains the `add_whitelist`
    callback on the contract's own account;
  * `Contract::add_whitelist` inspects the single promise result and inserts
    the recipient into `factory_whitelist` exactly when the outbound call
    succeeded;
  * the fungible-token core (balances, deposit/withdraw/transfer) comes from
    the `near-contract-standards` macros.

The embedding below is shallow: NEAR host state (predecessor account,
current account, promise results) is passed explicitly, u128 balances are
natural numbers with explicit bounds where the source uses checked
arithmetic, and a panicking entry point is a value of `Except Err`.
A call that panics is rolled back by the runtime, so applying an operation
to persisted state keeps the old state on `error` (`applyLedgerOp`,
`execEvent`).
-/

/-- Error taxonomy of the spec (§7) together with the one host-level trap the
code can hit (reading promise result 0 when no result exists). -/
inductive Err where
  | unauthorized
  | invalidAccount
  | accountNotRegistered
  | insufficientBalance
  | overflow
  | selfTransfer
  | zeroAmount
  | alreadyInitialized
  | callbackResultCountMismatch
  | promiseResultOutOfBounds
deriving DecidableEq, Repr

abbrev AccountId := String

deriving instance DecidableEq for Except

/-- Maximum value of a u128 `Balance`. -/
def U128_MAX : Nat := 2 ^ 128 - 1

/-- `true` when `e` is `Except.ok`. -/
def isOkE {α : Type} (e : Except Err α) : Bool :=
  match e with
  | .ok _ => true
  | .error _ => false

/-- Separator characters permitted inside a NEAR account id. -/
def isSeparatorChar (c : Char) : Bool :=
  c = '-' || c = '_' || c = '.'

/-- Character-level scan of an account id.  The flag records whether the
previous character was a separator; a separator may not start the string,
follow another separator, or end the string. -/
def accountCharsOk : List Char → Bool → Bool
  | [], lastSep => !lastSep
  | c :: rest, lastSep =>
    if c.isLower || c.isDigit then accountCharsOk rest false
    else if isSeparatorChar c then !lastSep && accountCharsOk rest true
    else false

/-- Modelled from the spec: the library-provided account-identifier format
validator (`env::is_valid_account_id`), an external collaborator utility
(§1, §6).  A valid id is 2–64 characters, built from lowercase letters,
digits and the separators `-` `_` `.`, with no leading, trailing or
consecutive separator. -/
def is_valid_account_id (s : String) : Bool :=
  2 ≤ s.length && s.length ≤ 64 && accountCharsOk s.toList true

/-- Balance ledger state: the registered accounts with their balances, and
the total-supply value fixed at initialization (spec §3: "the immutable
total-supply value fixed at initialization"). -/
structure FungibleToken where
  accounts : List (AccountId × Nat)
  total_supply : Nat
deriving DecidableEq, Repr

/-- First binding of key `a` in the account list. -/
def lookupBal : List (AccountId × Nat) → AccountId → Option Nat
  | [], _ => none
  | (k, v) :: t, a => if k = a then some v else lookupBal t a

/-- Replace the balance stored at the first binding of key `a`. -/
def setBal : List (AccountId × Nat) → AccountId → Nat → List (AccountId × Nat)
  | [], _, _ => []
  | (k, v) :: t, a, n => if k = a then (a, n) :: t else (k, v) :: setBal t a n

/-- Modelled from the spec: `balance_of` of the Balance Ledger (§4.2),
returning 0 for unregistered accounts.  The ledger implementation itself is
library code (`near-contract-standards`), not under `src/`. -/
def FungibleToken.balance_of (t : FungibleToken) (a : AccountId) : Nat :=
  (lookupBal t.accounts a).getD 0

/-- Modelled from the spec: account registration (§4.1) restricted to its
ledger effect — registering an already-registered account leaves the ledger
unchanged, otherwise the account is added with balance zero.  Storage-cost
accounting is out of scope for the claims below. -/
def FungibleToken.register (t : FungibleToken) (a : AccountId) : FungibleToken :=
  match lookupBal t.accounts a with
  | some _ => t
  | none => { t with accounts := (a, 0) :: t.accounts }

/-- Modelled from the spec: `deposit(account, amount)` of the Balance Ledger
(§4.2): requires the account registered, fails with `Overflow` when the new
balance would leave the u128 range, otherwise increases the balance. -/
def FungibleToken.deposit (t : FungibleToken) (a : AccountId) (amount : Nat) :
    Except Err FungibleToken :=
  match lookupBal t.accounts a with
  | none => .error .accountNotRegistered
  | some b =>
    if b + amount ≤ U128_MAX then
      .ok { t with accounts := setBal t.accounts a (b + amount) }
    else .error .overflow

/-- Modelled from the spec: `withdraw(account, amount)` of the Balance Ledger
(§4.2): requires the account registered with balance at least `amount`. -/
def FungibleToken.withdraw (t : FungibleToken) (a : AccountId) (amount : Nat) :
    Except Err FungibleToken :=
  match lookupBal t.accounts a with
  | none => .error .accountNotRegistered
  | some b =>
    if amount ≤ b then
      .ok { t with accounts := setBal t.accounts a (b - amount) }
    else .error .insufficientBalance

/-- Modelled from the spec: `transfer(sender, receiver, amount)` of the
Balance Ledger (§4.2): rejects self-transfers and zero amounts, then composes
`withdraw` and `deposit`; any failure aborts the whole operation. -/
def FungibleToken.transfer (t : FungibleToken) (s r : AccountId) (amount : Nat) :
    Except Err FungibleToken :=
  if s = r then .error .selfTransfer
  else if amount = 0 then .error .zeroAmount
  else
    match FungibleToken.withdraw t s amount with
    | .error e => .error e
    | .ok t1 => FungibleToken.deposit t1 r amount

/-- Sum of all registered balances. -/
def sumBalances (t : FungibleToken) : Nat :=
  (t.accounts.map Prod.snd).sum

/-- A NEAR promise result as delivered to a callback
(`near_sdk::PromiseResult`). -/
inductive PromiseResult where
  | notReady
  | successful (data : List Nat)
  | failed
deriving DecidableEq, Repr

/-- `true` exactly on `PromiseResult::Successful(_)`. -/
def PromiseResult.isSuccess : PromiseResult → Bool
  | .successful _ => true
  | _ => false

/-- Contract state (`struct Contract` in `lib.rs`): owner account, token
ledger, metadata blob (opaque to this core, spec §6), and the
`factory_whitelist` lookup set. -/
structure Contract where
  owner_id : AccountId
  token : FungibleToken
  metadata : String
  factory_whitelist : List AccountId
deriving DecidableEq, Repr

def GAS_FOR_FT_TRANSFER_CALL : Nat := 60000000000000

def GAS_FOR_ADD_WHITELIST_CALL : Nat := 30000000000000

/-- Indicates there are no deposit for a callback (`NO_DEPOSIT` in the
source). -/
def NO_DEPOSIT : Nat := 0

/-- The outbound `ft_transfer` function-call action built by
`Contract::transfer`: target account, method name, the JSON arguments
(receiver and the amount rendered as a decimal string by `to_string`),
attached deposit in yoctoNEAR and attached gas. -/
structure FtTransferCall where
  target : AccountId
  method : String
  receiver_id : AccountId
  amount : String
  deposit : Nat
  gas : Nat
deriving DecidableEq, Repr

/-- The chained `add_whitelist` callback action built by
`Contract::transfer`. -/
structure CallbackCall where
  target : AccountId
  method : String
  account_id : AccountId
  deposit : Nat
  gas : Nat
deriving DecidableEq, Repr

/-- `Contract::new`: fails when contract state already exists
("Already initialized"), otherwise registers the owner and deposits the
whole supply into the owner's account (the metadata blob is stored
opaquely).  `env::state_exists()` is passed explicitly. -/
def Contract.new (stateExists : Bool) (owner_id : AccountId) (total_supply : Nat)
    (metadata : String) : Except Err Contract :=
  if stateExists then .error .alreadyInitialized
  else
    let tok0 : FungibleToken := { accounts := [], total_supply := total_supply }
    let tok1 := FungibleToken.register tok0 owner_id
    match FungibleToken.deposit tok1 owner_id total_supply with
    | .error e => .error e
    | .ok tok2 =>
      .ok { owner_id := owner_id, token := tok2, metadata := metadata,
            factory_whitelist := [] }

/-- `ft_total_supply` of the standard fungible-token surface. -/
def Contract.ft_total_supply (c : Contract) : Nat :=
  c.token.total_supply

/-- `ft_balance_of` of the standard fungible-token surface. -/
def Contract.ft_balance_of (c : Contract) (a : AccountId) : Nat :=
  c.token.balance_of a

/-- `Contract::transfer`: asserts the predecessor is the contract's own
account, validates the receiver id, then returns (without touching persisted
state) the outbound `ft_transfer` promise on `owner_id` carrying 1 yoctoNEAR
and the chained `add_whitelist` callback on the current account carrying no
deposit.  The amount is serialized with `to_string`, i.e. base-10. -/
def Contract.transfer (c : Contract) (predecessor current : AccountId)
    (receiver_id : AccountId) (amount : Nat) :
    Except Err (Contract × FtTransferCall × CallbackCall) :=
  if predecessor ≠ current then .error .unauthorized
  else if !(is_valid_account_id receiver_id) then .error .invalidAccount
  else
    .ok (c,
      { target := c.owner_id, method := "ft_transfer", receiver_id := receiver_id,
        amount := toString amount, deposit := 1, gas := GAS_FOR_FT_TRANSFER_CALL },
      { target := current, method := "add_whitelist", account_id := receiver_id,
        deposit := NO_DEPOSIT, gas := GAS_FOR_ADD_WHITELIST_CALL })

/-- `is_promise_success`: asserts exactly one pending promise result
("Contract expected a result on the callback"), then reports whether that
result is `Successful`. -/
def is_promise_success (resultsCount : Nat) (result0 : PromiseResult) :
    Except Err Bool :=
  if resultsCount ≠ 1 then .error .callbackResultCountMismatch
  else .ok result0.isSuccess

/-- `Contract::add_whitelist`: the callback body.  Its first statement logs
`env::promise_result(0)`, which traps at the host level when there is no
pending result at index 0; then the account id is validated, then
`is_promise_success` enforces exactly one result; on a successful outbound
call the account is inserted into `factory_whitelist` and `true` is
returned, otherwise the state is untouched and `false` is returned. -/
def Contract.add_whitelist (c : Contract) (account_id : AccountId)
    (resultsCount : Nat) (result0 : PromiseResult) :
    Except Err (Contract × Bool) :=
  if resultsCount = 0 then .error .promiseResultOutOfBounds
  else if !(is_valid_account_id account_id) then .error .invalidAccount
  else
    match is_promise_success resultsCount result0 with
    | .error e => .error e
    | .ok true =>
      .ok ({ c with factory_whitelist := account_id :: c.factory_whitelist }, true)
    | .ok false => .ok (c, false)

/-- `Contract::is_whitelisted`: validates the account id, then queries the
lookup set. -/
def Contract.is_whitelisted (c : Contract) (account_id : AccountId) :
    Except Err Bool :=
  if !(is_valid_account_id account_id) then .error .invalidAccount
  else .ok (c.factory_whitelist.contains account_id)

/-- One Balance Ledger operation (spec §4.2). -/
inductive LedgerOp where
  | deposit (a : AccountId) (amount : Nat)
  | withdraw (a : AccountId) (amount : Nat)
  | transfer (s r : AccountId) (amount : Nat)
deriving DecidableEq, Repr

/-- Run one ledger operation. -/
def LedgerOp.run (t : FungibleToken) : LedgerOp → Except Err FungibleToken
  | .deposit a n => FungibleToken.deposit t a n
  | .withdraw a n => FungibleToken.withdraw t a n
  | .transfer s r n => FungibleToken.transfer t s r n

/-- Commit semantics of the execution environment: a call that fails is
rolled back, so persisted state is unchanged on `error`. -/
def applyLedgerOp (t : FungibleToken) (op : LedgerOp) : FungibleToken :=
  match LedgerOp.run t op with
  | .ok t2 => t2
  | .error _ => t

/-- Apply a sequence of ledger operations with per-call atomic commit. -/
def applyLedgerOps (t : FungibleToken) : List LedgerOp → FungibleToken
  | [] => t
  | op :: ops => applyLedgerOps (applyLedgerOp t op) ops

/-- `true` exactly on ledger transfer operations. -/
def LedgerOp.isTransferOp : LedgerOp → Bool
  | .transfer _ _ _ => true
  | _ => false

/-- One contract-level entry-point invocation, with the host context the
entry point reads passed inside the event. -/
inductive Event where
  | transferCall (predecessor current receiver : AccountId) (amount : Nat)
  | callback (account_id : AccountId) (resultsCount : Nat) (result0 : PromiseResult)
  | ftTransfer (sender receiver : AccountId) (amount : Nat)
  | register (a : AccountId)
deriving DecidableEq, Repr

/-- Per-call atomic commit at the contract level: an entry point that panics
leaves persisted state unchanged. -/
def execEvent (c : Contract) : Event → Contract
  | .transferCall p cur r amt =>
    match Contract.transfer c p cur r amt with
    | .ok out => out.1
    | .error _ => c
  | .callback a n res =>
    match Contract.add_whitelist c a n res with
    | .ok out => out.1
    | .error _ => c
  | .ftTransfer s r amt =>
    match FungibleToken.transfer c.token s r amt with
    | .ok tok => { c with token := tok }
    | .error _ => c
  | .register a => { c with token := c.token.register a }

/-- Execute a trace of entry-point invocations. -/
def execTrace (c : Contract) : List Event → Contract
  | [] => c
  | e :: tr => execTrace (execEvent c e) tr

/-- Re-initialisation attempt against optionally-existing persisted state:
`Contract::new` observes `env::state_exists()`, and a panicking call leaves
the old state in place. -/
def applyInit (prev : Option Contract) (owner_id : AccountId) (total_supply : Nat)
    (metadata : String) : Option Contract :=
  match Contract.new prev.isSome owner_id total_supply metadata with
  | .ok c => some c
  | .error _ => prev

/-- A sample initialized contract used by concrete witnesses: owner `alice`,
supply 100, deployed on account `token`. -/
def cEx : Contract :=
  { owner_id := "alice",
    token := { accounts := [("alice", 100)], total_supply := 100 },
    metadata := "m",
    factory_whitelist := [] }

/-- The outbound call built by `Contract.transfer cEx "token" "token" "bob" 5`. -/
def ftEx : FtTransferCall :=
  { target := "alice", method := "ft_transfer", receiver_id := "bob",
    amount := "5", deposit := 1, gas := GAS_FOR_FT_TRANSFER_CALL }

/-- The chained callback built by `Contract.transfer cEx "token" "token" "bob" 5`. -/
def cbEx : CallbackCall :=
  { target := "token", method := "add_whitelist", account_id := "bob",
    deposit := NO_DEPOSIT, gas := GAS_FOR_ADD_WHITELIST_CALL }

/-- Overwriting the first binding of a present key changes the balance sum by
exactly the difference between the new and the old value. -/
theorem sum_setBal : ∀ (l : List (AccountId × Nat)) (a : AccountId) (b n : Nat),
    lookupBal l a = some b →
    ((setBal l a n).map Prod.snd).sum + b = (l.map Prod.snd).sum + n := by
  intro l
  induction l with
  | nil => intro a b n h; simp [lookupBal] at h
  | cons hd tl ih =>
    intro a b n h
    obtain ⟨k, v⟩ := hd
    by_cases hk : k = a
    · subst hk
      simp [lookupBal] at h
      subst h
      simp [setBal]
      omega
    · simp [lookupBal, hk] at h
      simp [setBal, hk]
      have := ih a b n h
      omega

/-- A successful deposit raises the balance sum by the deposited amount and
leaves the fixed total supply untouched. -/
theorem deposit_ok_sum {t : FungibleToken} {a : AccountId} {n : Nat}
    {t2 : FungibleToken} (h : FungibleToken.deposit t a n = .ok t2) :
    sumBalances t2 = sumBalances t + n ∧ t2.total_supply = t.total_supply := by
  unfold FungibleToken.deposit at h
  cases hl : lookupBal t.accounts a with
  | none => rw [hl] at h; cases h
  | some b =>
    rw [hl] at h
    dsimp only at h
    by_cases hle : b + n ≤ U128_MAX
    · rw [if_pos hle] at h
      cases h
      have hs := sum_setBal t.accounts a b (b + n) hl
      constructor
      · simp only [sumBalances]
        omega
      · rfl
    · rw [if_neg hle] at h
      cases h

/-- A successful withdrawal lowers the balance sum by the withdrawn amount
and leaves the fixed total supply untouched. -/
theorem withdraw_ok_sum {t : FungibleToken} {a : AccountId} {n : Nat}
    {t2 : FungibleToken} (h : FungibleToken.withdraw t a n = .ok t2) :
    sumBalances t2 + n = sumBalances t ∧ t2.total_supply = t.total_supply := by
  unfold FungibleToken.withdraw at h
  cases hl : lookupBal t.accounts a with
  | none => rw [hl] at h; cases h
  | some b =>
    rw [hl] at h
    dsimp only at h
    by_cases hle : n ≤ b
    · rw [if_pos hle] at h
      cases h
      have hs := sum_setBal t.accounts a b (b - n) hl
      constructor
      · simp only [sumBalances]
        omega
      · rfl
    · rw [if_neg hle] at h
      cases h

/-- A successful ledger transfer conserves the balance sum and the fixed
total supply. -/
theorem transfer_ok_sum {t : FungibleToken} {s r : AccountId} {n : Nat}
    {t2 : FungibleToken} (h : FungibleToken.transfer t s r n = .ok t2) :
    sumBalances t2 = sumBalances t ∧ t2.total_supply = t.total_supply := by
  unfold FungibleToken.transfer at h
  split at h
  · cases h
  · split at h
    · cases h
    · cases hw : FungibleToken.withdraw t s n with
      | error e => rw [hw] at h; cases h
      | ok t1 =>
        rw [hw] at h
        have h1 := withdraw_ok_sum hw
        have h2 := deposit_ok_sum h
        constructor
        · omega
        · rw [h2.2, h1.2]

/-- With per-call atomic commit, a ledger transfer (successful or rolled
back) never changes the balance sum. -/
theorem applyLedgerOp_transfer_sum (t : FungibleToken) (s r : AccountId) (n : Nat) :
    sumBalances (applyLedgerOp t (.transfer s r n)) = sumBalances t := by
  cases h : FungibleToken.transfer t s r n with
  | ok t2 =>
    have := transfer_ok_sum h
    simp [applyLedgerOp, LedgerOp.run, h, this.1]
  | error e => simp [applyLedgerOp, LedgerOp.run, h]

/-- A sequence consisting only of ledger transfers conserves the balance
sum. -/
theorem applyLedgerOps_transfers_sum (ops : List LedgerOp) :
    ∀ t : FungibleToken, (∀ op ∈ ops, op.isTransferOp = true) →
    sumBalances (applyLedgerOps t ops) = sumBalances t := by
  induction ops with
  | nil => intro t _; rfl
  | cons op ops ih =>
    intro t h
    have hop := h op (List.mem_cons_self op ops)
    have hops : ∀ o ∈ ops, o.isTransferOp = true :=
      fun o ho => h o (List.mem_cons_of_mem _ ho)
    cases op with
    | transfer s r n =>
      simp only [applyLedgerOps]
      rw [ih _ hops, applyLedgerOp_transfer_sum]
    | deposit a n => simp [LedgerOp.isTransferOp] at hop
    | withdraw a n => simp [LedgerOp.isTransferOp] at hop

/-- The shape of a freshly initialized contract: the owner is registered
with the whole supply, the supply field holds the minted amount, the
whitelist starts empty. -/
theorem new_ok_shape {stEx : Bool} {o : AccountId} {S : Nat} {m : String}
    {c : Contract} (h : Contract.new stEx o S m = .ok c) :
    c = { owner_id := o,
          token := { accounts := [(o, S)], total_supply := S },
          metadata := m, factory_whitelist := [] } := by
  unfold Contract.new at h
  split at h
  · cases h
  · by_cases hS : S ≤ U128_MAX
    · simp only [FungibleToken.register, FungibleToken.deposit, lookupBal, setBal,
        if_true, reduceIte, Nat.zero_add, if_pos hS] at h
      cases h
      rfl
    · simp only [FungibleToken.register, FungibleToken.deposit, lookupBal, setBal,
        if_true, reduceIte, Nat.zero_add, if_neg hS] at h
      cases h

/-- Claim C4 counterexample: starting from the initialized ledger (owner
`alice`, supply 100), the one-operation sequence `[deposit alice 5]` does not
fail, yet afterwards the sum of all registered balances is 105, not the 100
fixed at initialization — a lone successful deposit acts as a mint. -/
theorem conservation_deposit_counterexample :
    Contract.new false "alice" 100 "m" = .ok cEx ∧
    isOkE (FungibleToken.deposit cEx.token "alice" 5) = true ∧
    sumBalances (applyLedgerOps cEx.token [LedgerOp.deposit "alice" 5]) = 105 ∧
    (105 : Nat) ≠ 100 := by decide

/-- Claim C4 (amended): for every sequence of ledger `transfer` operations —
the only balance-mutating operations the contract exposes after
initialization — starting from an initialized ledger, the sum of
`balance_of(a)` over all registered accounts equals the total supply fixed
at initialization, at every observation point (failed transfers are rolled
back and also conserve the sum); a standalone non-failing `deposit` or
`withdraw`, by contrast, changes the sum. -/
theorem conservation_transfer_sequences (stEx : Bool) (owner meta : String)
    (S : Nat) (c : Contract) (ops : List LedgerOp)
    (hc : Contract.new stEx owner S meta = .ok c)
    (hops : ∀ op ∈ ops, op.isTransferOp = true) :
    sumBalances (applyLedgerOps c.token ops) = S ∧
    Contract.ft_total_supply c = S := by
  have hshape := new_ok_shape hc
  subst hshape
  refine ⟨?_, rfl⟩
  rw [applyLedgerOps_transfers_sum ops _ hops]
  simp [sumBalances]

/-- Witness for `conservation_transfer_sequences` at a concrete input. -/
theorem conservation_transfer_sequences_witness :
    sumBalances (applyLedgerOps cEx.token [LedgerOp.transfer "alice" "bob" 30]) = 100 ∧
    Contract.ft_total_supply cEx = 100 :=
  conservation_transfer_sequences false "alice" "m" 100 cEx
    [LedgerOp.transfer "alice" "bob" 30] (by decide) (by decide)

/-- Claim C5: whenever a ledger transfer fails for any reason (insufficient
balance, unregistered endpoint, self-transfer, zero amount, overflow), the
persisted balances of the sender and of the receiver are unchanged from
immediately before the call; no partial transfer is observable. -/
theorem transfer_atomicity (t : FungibleToken) (s r : AccountId) (n : Nat)
    (e : Err) (h : FungibleToken.transfer t s r n = .error e) :
    FungibleToken.balance_of (applyLedgerOp t (.transfer s r n)) s =
      FungibleToken.balance_of t s ∧
    FungibleToken.balance_of (applyLedgerOp t (.transfer s r n)) r =
      FungibleToken.balance_of t r := by
  simp [applyLedgerOp, LedgerOp.run, h]

/-- Witness for `transfer_atomicity`: a transfer to an unregistered
receiver fails and leaves both balances as they were. -/
theorem transfer_atomicity_witness :
    FungibleToken.balance_of (applyLedgerOp cEx.token (.transfer "alice" "bob" 5)) "alice" =
      FungibleToken.balance_of cEx.token "alice" ∧
    FungibleToken.balance_of (applyLedgerOp cEx.token (.transfer "alice" "bob" 5)) "bob" =
      FungibleToken.balance_of cEx.token "bob" :=
  transfer_atomicity cEx.token "alice" "bob" 5 .accountNotRegistered (by decide)

/-- Claim C7: after initializing with total supply 1 000 000 and owner
`alice`, the owner's balance and the total supply both read 1 000 000, and
the owner is registered (present in the ledger) implicitly. -/
theorem init_concrete_balances :
    (Contract.new false "alice" 1000000 "m").map
      (fun c => (c.ft_balance_of "alice", c.ft_total_supply,
                 lookupBal c.token.accounts "alice")) =
      .ok (1000000, 1000000, some 1000000) := by decide

/-- Claim C8: initialization is one-time — invoked when contract state
already exists it fails with `AlreadyInitialized`, and the existing state is
left unmodified. -/
theorem init_one_time (c0 : Contract) (owner : AccountId) (S : Nat)
    (meta : String) :
    Contract.new true owner S meta = .error .alreadyInitialized ∧
    applyInit (some c0) owner S meta = some c0 :=
  ⟨rfl, rfl⟩

/-- Claim C2 counterexample: on `cEx` (owner `alice`, deployed on account
`token`) a caller equal to the contract account but different from the
designated owner is accepted, and the owner itself — calling from its own
account, distinct from the contract account — is rejected: the entry point
gates on the contract's own account id, not on the stored owner id. -/
theorem transfer_owner_check_counterexample :
    cEx.owner_id = "alice" ∧
    ("token" : AccountId) ≠ "alice" ∧
    isOkE (Contract.transfer cEx "token" "token" "bob" 5) = true ∧
    ("alice" : AccountId) ≠ "token" ∧
    Contract.transfer cEx "alice" "token" "bob" 5 = .error .unauthorized := by
  decide

/-- Claim C2 (amended): the `transfer` entry point rejects with
`Unauthorized` every caller whose identity differs from the contract's own
account identity (the predecessor must equal the current account, not the
stored owner id), before any state mutation — persisted state is unchanged
and no outbound call is issued. -/
theorem transfer_requires_contract_account (c : Contract) (p cur r : AccountId)
    (a : Nat) (h : p ≠ cur) :
    Contract.transfer c p cur r a = .error .unauthorized ∧
    execEvent c (.transferCall p cur r a) = c := by
  have ht : Contract.transfer c p cur r a = .error .unauthorized := by
    simp [Contract.transfer, h]
  exact ⟨ht, by simp [execEvent, ht]⟩

/-- Witness for `transfer_requires_contract_account`. -/
theorem transfer_requires_contract_account_witness :
    Contract.transfer cEx "alice" "token" "bob" 7 = .error .unauthorized ∧
    execEvent cEx (.transferCall "alice" "token" "bob" 7) = cEx :=
  transfer_requires_contract_account cEx "alice" "token" "bob" 7 (by decide)

/-- Claim C6: a successful `transfer` invocation mutates no persisted
contract state — owner id, token ledger, metadata and allow-list are all
returned exactly as they were; the only effects are the outbound call and
its chained callback carried in the returned promise description. -/
theorem transfer_no_state_mutation (c : Contract) (p cur r : AccountId)
    (a : Nat) (out : Contract × FtTransferCall × CallbackCall)
    (h : Contract.transfer c p cur r a = .ok out) : out.1 = c := by
  unfold Contract.transfer at h
  split at h
  · cases h
  · split at h
    · cases h
    · cases h
      rfl

/-- Witness for `transfer_no_state_mutation`: the concrete successful call
returns the contract state unchanged. -/
theorem transfer_no_state_mutation_witness :
    ((cEx, ftEx, cbEx) : Contract × FtTransferCall × CallbackCall).1 = cEx :=
  transfer_no_state_mutation cEx "token" "token" "bob" 5 (cEx, ftEx, cbEx)
    (by decide)

/-- Claim C9: every accepted `transfer` invocation addresses the outbound
`ft_transfer` call to the stored `owner_id` account, serializes the amount
with `to_string` (base-10 decimal, `toString` on `Nat`), attaches exactly
1 yoctoNEAR and `GAS_FOR_FT_TRANSFER_CALL` gas, and chains the
`add_whitelist` callback on the contract's own account with zero attached
deposit and `GAS_FOR_ADD_WHITELIST_CALL` gas. -/
theorem transfer_promise_shape (c : Contract) (p cur r : AccountId) (a : Nat)
    (h1 : p = cur) (h2 : is_valid_account_id r = true) :
    Contract.transfer c p cur r a = .ok (c,
      { target := c.owner_id, method := "ft_transfer", receiver_id := r,
        amount := toString a, deposit := 1, gas := GAS_FOR_FT_TRANSFER_CALL },
      { target := cur, method := "add_whitelist", account_id := r,
        deposit := NO_DEPOSIT, gas := GAS_FOR_ADD_WHITELIST_CALL }) := by
  subst h1
  simp [Contract.transfer, h2]

/-- Witness for `transfer_promise_shape`: the amount 12345 travels as the
decimal string "12345", with 1 yoctoNEAR on the outbound call and none on
the callback. -/
theorem transfer_promise_shape_witness :
    Contract.transfer cEx "token" "token" "bob" 12345 = .ok (cEx,
      { target := "alice", method := "ft_transfer", receiver_id := "bob",
        amount := "12345", deposit := 1, gas := GAS_FOR_FT_TRANSFER_CALL },
      { target := "token", method := "add_whitelist", account_id := "bob",
        deposit := 0, gas := GAS_FOR_ADD_WHITELIST_CALL }) := by
  have h := transfer_promise_shape cEx "token" "token" "bob" 12345 rfl (by decide)
  simpa [cEx, NO_DEPOSIT] using h

/-- Claim C10: the `transfer` entry point validates only the caller identity
and the recipient's identifier format — its acceptance is exactly
`predecessor = current ∧ recipient well-formed`, independent of the amount
(zero included), of the recipient's registration in the ledger, and of the
recipient being the owner itself; no `ZeroAmount`, `SelfTransfer` or
registration check is performed here. -/
theorem transfer_validation_only (c : Contract) (p cur r : AccountId) (a : Nat) :
    isOkE (Contract.transfer c p cur r a) =
      (decide (p = cur) && is_valid_account_id r) := by
  by_cases hp : p = cur
  · subst hp
    cases hvr : is_valid_account_id r <;>
      simp [Contract.transfer, isOkE, hvr]
  · simp [Contract.transfer, isOkE, hp]

/-- Exhaustive description of the callback's non-aborting executions: the
result count was exactly one, the account id was well-formed, and the
whitelist was extended exactly on a successful outbound result. -/
theorem add_whitelist_ok_cases {c : Contract} {a : AccountId} {n : Nat}
    {res : PromiseResult} {out : Contract × Bool}
    (h : Contract.add_whitelist c a n res = .ok out) :
    n = 1 ∧ is_valid_account_id a = true ∧
    ((res.isSuccess = true ∧
        out = ({ c with factory_whitelist := a :: c.factory_whitelist }, true)) ∨
     (res.isSuccess = false ∧ out = (c, false))) := by
  unfold Contract.add_whitelist is_promise_success at h
  by_cases h0 : n = 0
  · rw [if_pos h0] at h
    cases h
  · rw [if_neg h0] at h
    by_cases hv : is_valid_account_id a = true
    · rw [hv] at h
      simp only [Bool.not_true, Bool.false_eq_true, if_false] at h
      by_cases h1 : n = 1
      · subst h1
        simp only [ne_eq, not_true_eq_false, if_false] at h
        cases hres : res.isSuccess <;> rw [hres] at h <;>
          simp only [] at h <;> cases h <;> simp [hv, hres]
      · simp only [ne_eq, h1, not_false_eq_true, if_true] at h
        cases h
    · have hv2 : is_valid_account_id a = false := by
        cases hx : is_valid_account_id a
        · rfl
        · exact absurd hx hv
      rw [hv2] at h
      simp only [Bool.not_false, if_true] at h
      cases h

/-- A single entry-point execution can add `x` to the whitelist only when it
is the callback for `x` running with exactly one, successful, promise
result; every other event leaves the whitelist's members as they were. -/
theorem execEvent_whitelist_mem (c : Contract) (e : Event) (x : AccountId)
    (h : x ∈ (execEvent c e).factory_whitelist) :
    x ∈ c.factory_whitelist ∨
    ∃ d, e = Event.callback x 1 (.successful d) := by
  cases e with
  | transferCall p cur r amt =>
    left
    simp only [execEvent] at h
    cases ht : Contract.transfer c p cur r amt with
    | ok out =>
      simp only [ht] at h
      have : out.1 = c := by
        unfold Contract.transfer at ht
        split at ht
        · cases ht
        · split at ht
          · cases ht
          · cases ht
            rfl
      rwa [this] at h
    | error e =>
      simp only [ht] at h
      exact h
  | callback a n res =>
    simp only [execEvent] at h
    cases ht : Contract.add_whitelist c a n res with
    | ok out =>
      simp only [ht] at h
      obtain ⟨h1, hv, hcase⟩ := add_whitelist_ok_cases ht
      subst h1
      rcases hcase with ⟨hres, hout⟩ | ⟨hres, hout⟩
      · rw [hout] at h
        rcases List.mem_cons.mp h with hxa | hold
        · subst hxa
          right
          cases res with
          | successful d => exact ⟨d, rfl⟩
          | notReady => simp [PromiseResult.isSuccess] at hres
          | failed => simp [PromiseResult.isSuccess] at hres
        · exact Or.inl hold
      · rw [hout] at h
        exact Or.inl h
    | error e =>
      simp only [ht] at h
      exact Or.inl h
  | ftTransfer s r amt =>
    left
    simp only [execEvent] at h
    cases ht : FungibleToken.transfer c.token s r amt with
    | ok tok =>
      simp only [ht] at h
      exact h
    | error e =>
      simp only [ht] at h
      exact h
  | register a =>
    left
    simp only [execEvent] at h
    exact h

/-- Over a whole trace, whitelist membership can only originate from a
successful, single-result callback execution for that very account. -/
theorem whitelist_provenance (tr : List Event) :
    ∀ (c : Contract) (x : AccountId),
    x ∈ (execTrace c tr).factory_whitelist →
    x ∈ c.factory_whitelist ∨
    ∃ d, Event.callback x 1 (.successful d) ∈ tr := by
  induction tr with
  | nil => intro c x h; exact Or.inl h
  | cons e tr ih =>
    intro c x h
    rcases ih (execEvent c e) x h with h1 | ⟨d, hd⟩
    · rcases execEvent_whitelist_mem c e x h1 with h2 | ⟨d, he⟩
      · exact Or.inl h2
      · exact Or.inr ⟨d, by rw [he]; exact List.mem_cons_self _ _⟩
    · exact Or.inr ⟨d, List.mem_cons_of_mem _ hd⟩

/-- Claim C1: at every resolution of the orchestrated callback (exactly one
pending result, recipient validated at issuance): on a successful outbound
call the recipient is inserted into the allow-list and the callback returns
`true`; on any non-success outcome the allow-list is untouched and it
returns `false`.  Consequently, starting from an initialized contract (empty
allow-list), `is_whitelisted x = ok true` only after a successful callback
for `x` — never without one — and hence (since callbacks are scheduled only
by `transfer` invocations, hypothesis `hwf`) only after some
`transfer(x, amount)` whose outbound step resolved successfully. -/
theorem add_whitelist_gating (c : Contract) (a : AccountId)
    (res : PromiseResult) (hva : is_valid_account_id a = true)
    (init : Contract) (tr : List Event) (x : AccountId)
    (hinit : init.factory_whitelist = [])
    (hwf : ∀ y n r, Event.callback y n r ∈ tr →
      ∃ p cur amt, Event.transferCall p cur y amt ∈ tr) :
    (res.isSuccess = true →
      Contract.add_whitelist c a 1 res =
        .ok ({ c with factory_whitelist := a :: c.factory_whitelist }, true)) ∧
    (res.isSuccess = false →
      Contract.add_whitelist c a 1 res = .ok (c, false)) ∧
    (Contract.is_whitelisted (execTrace init tr) x = .ok true →
      (∃ d, Event.callback x 1 (.successful d) ∈ tr) ∧
      ∃ p cur amt, Event.transferCall p cur x amt ∈ tr) := by
  refine ⟨?_, ?_, ?_⟩
  · intro hs
    unfold Contract.add_whitelist is_promise_success
    simp [hva, hs]
  · intro hs
    unfold Contract.add_whitelist is_promise_success
    simp [hva, hs]
  · intro hw
    have hmem : x ∈ (execTrace init tr).factory_whitelist := by
      unfold Contract.is_whitelisted at hw
      by_cases hv : is_valid_account_id x = true
      · rw [hv] at hw
        simp only [Bool.not_true, Bool.false_eq_true, if_false] at hw
        have hcont : (execTrace init tr).factory_whitelist.contains x = true := by
          injection hw
        exact List.mem_of_elem_eq_true hcont
      · have hv2 : is_valid_account_id x = false := by
          cases hx : is_valid_account_id x
          · rfl
          · exact absurd hx hv
        rw [hv2] at hw
        simp at hw
    rcases whitelist_provenance tr init x hmem with h1 | ⟨d, hd⟩
    · rw [hinit] at h1
      cases h1
    · exact ⟨⟨d, hd⟩, hwf x 1 (.successful d) hd⟩

/-- Witness for `add_whitelist_gating`: a successful single result inserts
`bob` and returns `true`. -/
theorem add_whitelist_gating_witness :
    Contract.add_whitelist cEx "bob" 1 (.successful []) =
      .ok ({ cEx with factory_whitelist := "bob" :: cEx.factory_whitelist },
        true) :=
  (add_whitelist_gating cEx "bob" (.successful []) (by decide) cEx [] "bob"
    rfl (fun y n r hmem => absurd hmem (List.not_mem_nil _))).1 rfl

/-- Claim C3 counterexample: with zero pending promise results the callback
does abort, but with the host-level promise-result-index trap raised by its
own debug log of `env::promise_result(0)` — not with the
`CallbackResultCountMismatch` count assertion the claim names. -/
theorem add_whitelist_zero_results_counterexample :
    Contract.add_whitelist cEx "bob" 0 PromiseResult.failed =
      .error .promiseResultOutOfBounds ∧
    Contract.add_whitelist cEx "bob" 0 PromiseResult.failed ≠
      .error .callbackResultCountMismatch ∧
    Err.promiseResultOutOfBounds ≠ Err.callbackResultCountMismatch := by
  decide

/-- Claim C3 (amended): for a validated recipient the callback never returns
a value (in particular never `false`) when the pending-result count differs
from one: with more than one result it aborts with
`CallbackResultCountMismatch`; with zero results it aborts as well, but with
the promise-result-index trap raised by the debug log that precedes the
count assertion; with exactly one result it proceeds normally. -/
theorem add_whitelist_result_count_guard (c : Contract) (a : AccountId)
    (n : Nat) (res : PromiseResult) (hva : is_valid_account_id a = true) :
    (n = 0 →
      Contract.add_whitelist c a n res = .error .promiseResultOutOfBounds) ∧
    (1 < n →
      Contract.add_whitelist c a n res = .error .callbackResultCountMismatch) ∧
    (n ≠ 1 → isOkE (Contract.add_whitelist c a n res) = false) ∧
    (n = 1 → isOkE (Contract.add_whitelist c a n res) = true) := by
  refine ⟨?_, ?_, ?_, ?_⟩
  · intro h0
    subst h0
    rfl
  · intro hgt
    have h0 : ¬ n = 0 := by omega
    have hne : n ≠ 1 := by omega
    unfold Contract.add_whitelist is_promise_success
    simp [h0, hva, hne]
  · intro hne
    by_cases h0 : n = 0
    · subst h0
      rfl
    · unfold Contract.add_whitelist is_promise_success
      simp [h0, hva, hne, isOkE]
  · intro h1
    subst h1
    unfold Contract.add_whitelist is_promise_success
    cases hres : res.isSuccess <;> simp [hva, hres, isOkE]

/-- Witness for `add_whitelist_result_count_guard`: two pending results
abort with the count-mismatch error. -/
theorem add_whitelist_result_count_guard_witness :
    Contract.add_whitelist cEx "bob" 2 PromiseResult.failed =
      .error .callbackResultCountMismatch :=
  (add_whitelist_result_count_guard cEx "bob" 2 PromiseResult.failed
    (by decide)).2.1 (by decide)
